import Mathlib

/-! Contract indexer (`internal/indexer/indexer.go`)

A shallow embedding of the per-contract indexing step (`Indexer.Index`,
`indexTransaction`, `indexEvent`), of the topic helpers `getEventPubName` /
`getTxPubName` and of the pipeline start-up `indexProcess`, followed by the
properties established about them.

Conventions of the embedding.

* A Go `string` is a byte sequence and `[]byte(s)` copies exactly those bytes, so
  strings and byte slices are both modelled by `String` (`Bytes` below) and the
  conversion `[]byte(s)` is the identity.
* `uint64` values (block number, timestamp) are natural numbers; the only
  arithmetic performed on them is the conversion `int64(block.Timestamp)`,
  modelled by `toInt64` with its wrap-around.
* The collaborators that live outside this file (`storage.Storage`,
  `dispatcher.EventDispatcher`, `gob`, `starknet.EnsureStarkFelt`,
  `saveContractInterestingBlock`, `getContractSnapshot`) are parameters; every
  call made to them is recorded, in order, in the `calls` field of the `World`.
-/

namespace Indexer

/-! ## Formatting (`fmt.Sprintf` with the verbs `%s` and `%d`) -/

/-- An operand of `fmt.Sprintf`: a string for `%s`, an unsigned integer for `%d`. -/
inductive Arg where
  | str (s : String)
  | uint (n : Nat)
  deriving DecidableEq, Repr

/-- The formatting loop of `fmt.Sprintf` on the characters of the format string:
`%s` consumes a string operand, `%d` consumes an integer operand and renders it
in decimal, every other character is copied. -/
def sprintfAux : List Char → List Arg → List Char
  | [], _ => []
  | [c], _ => [c]
  | c :: v :: fmt, args =>
    if c = '%' then
      match v, args with
      | 's', Arg.str s :: rest => s.data ++ sprintfAux fmt rest
      | 'd', Arg.uint n :: rest => (Nat.repr n).data ++ sprintfAux fmt rest
      | _, _ => c :: sprintfAux (v :: fmt) args
    else c :: sprintfAux (v :: fmt) args

/-- Model of `fmt.Sprintf(format, args...)`. -/
def sprintf (format : String) (args : List Arg) : String :=
  ⟨sprintfAux format.data args⟩

/-- Go: `func getEventPubName(account, contract, eventId string, recordedAt uint64) string`
returning `fmt.Sprintf("%s.event.%s.%s.%d", account, contract, eventId, recordedAt)`. -/
def getEventPubName (account contract eventId : String) (recordedAt : Nat) : String :=
  sprintf "%s.event.%s.%s.%d" [.str account, .str contract, .str eventId, .uint recordedAt]

/-- Go: `func getTxPubName(account, contract, txHash string, recordedAt uint64) string`
returning `fmt.Sprintf("%s.tx.%s.%s.%d", account, contract, txHash, recordedAt)`. -/
def getTxPubName (account contract txHash : String) (recordedAt : Nat) : String :=
  sprintf "%s.tx.%s.%s.%d" [.str account, .str contract, .str txHash, .uint recordedAt]

/-- Storage key of a matched transaction: `fmt.Sprintf("%s.tx.%s", address, tx.TransactionHash)`. -/
def txKey (address txHash : String) : String :=
  sprintf "%s.tx.%s" [.str address, .str txHash]

/-- Identifier given to an event: `fmt.Sprintf("%s_%d", tx.TransactionHash, eventIdx)`. -/
def mkEventId (txHash : String) (eventIdx : Nat) : String :=
  sprintf "%s_%d" [.str txHash, .uint eventIdx]

/-- Per-contract storage key of an event: `fmt.Sprintf("%s.event.%s", address, eventId)`. -/
def eventKey (address eventId : String) : String :=
  sprintf "%s.event.%s" [.str address, .str eventId]

/-- Global storage key of an event: `fmt.Sprintf("event.%s", eventId)`. -/
def globalEventKey (eventId : String) : String :=
  sprintf "event.%s" [.str eventId]


/-! ## Data model -/

/-- A Go byte slice. `[]byte(s)` of a string is the string's own byte sequence. -/
abbrev Bytes := String

/-- Go: the conversion `int64(x)` of a `uint64` value: two's complement
reinterpretation of the low 64 bits. -/
def toInt64 (x : Nat) : Int :=
  if x % 2 ^ 64 < 2 ^ 63 then ((x % 2 ^ 64 : Nat) : Int) else ((x % 2 ^ 64 : Nat) : Int) - 2 ^ 64

/-- Go: `time.Unix(sec, 0)`. A `time.Time` without monotonic reading is
represented by its Unix seconds. -/
def timeUnix (sec : Int) : Int := sec

/-- Modelled from the spec: `starknet.Transaction` is declared in
`internal/starknet`, outside this file; the fields are those the indexer reads,
as listed in the data model (`{TransactionHash, SenderAddress}`). -/
structure Transaction where
  TransactionHash : String
  SenderAddress : String
  deriving DecidableEq, Repr

/-- Modelled from the spec: `starknet.Event` is declared in `internal/starknet`,
outside this file; the fields are those listed in the data model
(`{FromAddress, EventId, RecordedAt}`). `RecordedAt` is a `time.Time`, held as
Unix seconds. -/
structure Event where
  FromAddress : String
  EventId : String
  RecordedAt : Int
  deriving DecidableEq, Repr

/-- Modelled from the spec: an element of `block.TransactionReceipts`, with the
receipt's transaction hash and its nested events. -/
structure TransactionReceipt where
  TransactionHash : String
  Events : List Event
  deriving DecidableEq, Repr

/-- Modelled from the spec: `starknet.GetBlockResponse`,
`{BlockNumber, Timestamp, Transactions[], TransactionReceipts[]}`; the two numbers
are `uint64`. -/
structure GetBlockResponse where
  BlockNumber : Nat
  Timestamp : Nat
  Transactions : List Transaction
  TransactionReceipts : List TransactionReceipt
  deriving DecidableEq, Repr

/-- Modelled from the spec: `config.Contract`, `{Address}`. -/
structure Contract where
  Address : String
  deriving DecidableEq, Repr

/-- Modelled from the spec: `config.Config`, `{AppName, Hash, StartBlock, Contracts}`. -/
structure Config where
  AppName : String
  Hash : String
  StartBlock : Nat
  Contracts : List Contract
  deriving DecidableEq, Repr

/-- Modelled from the spec: the value returned by `getContractSnapshot`,
`{Blocks, LatestBlock}`; `Blocks` is kept in its stored order. -/
structure ContractSnapshot where
  Blocks : List Nat
  LatestBlock : Nat
  deriving DecidableEq, Repr

/-! ## Collaborators and the observable world -/

/-- A call made by the indexer to one of its collaborators. -/
inductive Call where
  /-- The call `i.storage.Set(key, value)`. -/
  | set (key : Bytes) (value : Bytes)
  /-- The call `i.bus.Publish(topic, payload)`. -/
  | publish (topic : String) (payload : Bytes)
  /-- The call `saveContractInterestingBlock(i.storage, address, blockNumber)`. -/
  | saveInteresting (address : String) (blockNumber : Nat)
  deriving DecidableEq, Repr

/-- Severity of a log line (`log.Error`, `log.Info`). -/
inductive Level where
  | error
  | info
  deriving DecidableEq, Repr

/-- A line written through `log`. Only the message is kept. -/
structure LogLine where
  level : Level
  msg : String
  deriving DecidableEq, Repr

/-- The functions the indexer calls but does not define. `σ` is the state of the
storage behind `i.storage`.

* `EnsureStarkFelt` is `starknet.EnsureStarkFelt`.
* `encodeTx` / `encodeEvent` are `gob.NewEncoder(&buf).Encode(v)` on a fresh buffer:
  the content of the buffer afterwards (`buf.Bytes()`) and whether an error was
  returned.
* `storageSet` is `storage.Set`: the storage afterwards and whether an error was
  returned.
* `saveContractInterestingBlock` is the checkpoint update; it returns nothing. -/
structure Collaborators (σ : Type) where
  EnsureStarkFelt : String → String
  encodeTx : Transaction → Bytes × Bool
  encodeEvent : Event → Bytes × Bool
  storageSet : σ → Bytes → Bytes → σ × Bool
  saveContractInterestingBlock : σ → String → Nat → σ

/-- Everything the indexing step can change: the storage, the calls made so far
to the collaborators (oldest first) and the log. -/
structure World (σ : Type) where
  storage : σ
  calls : List Call
  logs : List LogLine

/-- A world in which nothing has happened yet. -/
def World.init {σ : Type} (s : σ) : World σ := ⟨s, [], []⟩

/-- Effect of `log.Error(msg, ...)`. -/
def World.logError {σ : Type} (w : World σ) (msg : String) : World σ :=
  { w with logs := w.logs ++ [⟨Level.error, msg⟩] }

/-- Effect of `log.Info(msg, ...)`. -/
def World.logInfo {σ : Type} (w : World σ) (msg : String) : World σ :=
  { w with logs := w.logs ++ [⟨Level.info, msg⟩] }

/-- Effect of `i.storage.Set(key, value)`, with the error flag it returns. -/
def World.storageSet {σ : Type} (env : Collaborators σ) (w : World σ) (key value : Bytes) :
    World σ × Bool :=
  ({ w with storage := (env.storageSet w.storage key value).1,
            calls := w.calls ++ [Call.set key value] },
   (env.storageSet w.storage key value).2)

/-- Effect of `i.bus.Publish(topic, payload)`. -/
def World.publish {σ : Type} (w : World σ) (topic : String) (payload : Bytes) : World σ :=
  { w with calls := w.calls ++ [Call.publish topic payload] }

/-- Effect of `saveContractInterestingBlock(i.storage, address, blockNumber)`. -/
def World.saveInteresting {σ : Type} (env : Collaborators σ) (w : World σ) (address : String)
    (blockNumber : Nat) : World σ :=
  { w with storage := env.saveContractInterestingBlock w.storage address blockNumber,
           calls := w.calls ++ [Call.saveInteresting address blockNumber] }

/-! ## The indexing step -/

/-- Body of the loop of `indexTransaction` for one transaction `tx`. -/
def indexTransactionBody {σ : Type} (env : Collaborators σ) (cfg : Config) (address : String)
    (block : GetBlockResponse) (w : World σ) (tx : Transaction) : World σ :=
  if env.EnsureStarkFelt tx.SenderAddress ≠ env.EnsureStarkFelt address then
    w
  else
    let enc := env.encodeTx tx
    let w := if enc.2 then w.logError "failed to encode event" else w
    let r := w.storageSet env (txKey address tx.TransactionHash) enc.1
    let w := if r.2 then r.1.logError "failed to store event" else r.1
    let w := w.logInfo "Indexing tx for address"
    let w := w.publish (getTxPubName cfg.Hash address tx.TransactionHash block.Timestamp)
      tx.TransactionHash
    w.saveInteresting env address block.BlockNumber

/-- Go: `func (i *Indexer) indexTransaction(address string, block *starknet.GetBlockResponse)`:
the loop `for _, tx := range block.Transactions`. -/
def indexTransaction {σ : Type} (env : Collaborators σ) (cfg : Config) (address : String)
    (block : GetBlockResponse) (w : World σ) : World σ :=
  block.Transactions.foldl (indexTransactionBody env cfg address block) w

/-- The event as it is encoded: the loop's copy of `event` after
`event.EventId = eventId` and `event.RecordedAt = time.Unix(int64(block.Timestamp), 0)`. -/
def stampEvent (eventId : String) (block : GetBlockResponse) (event : Event) : Event :=
  { event with EventId := eventId, RecordedAt := timeUnix (toInt64 block.Timestamp) }

/-- Body of the inner loop of `indexEvent` for the event `event` at position
`eventIdx` of the receipt `tx`. -/
def indexEventBody {σ : Type} (env : Collaborators σ) (cfg : Config) (address : String)
    (block : GetBlockResponse) (tx : TransactionReceipt) (w : World σ)
    (p : Nat × Event) : World σ :=
  let eventIdx := p.1
  let event := p.2
  if env.EnsureStarkFelt event.FromAddress ≠ env.EnsureStarkFelt address then
    w
  else
    let eventId := mkEventId tx.TransactionHash eventIdx
    let event := stampEvent eventId block event
    let enc := env.encodeEvent event
    let w := if enc.2 then w.logError "failed to encode event" else w
    let r := w.storageSet env (eventKey address eventId) enc.1
    let w := if r.2 then r.1.logError "failed to store event" else r.1
    let r := w.storageSet env (globalEventKey eventId) enc.1
    let w := if r.2 then r.1.logError "failed to store event" else r.1
    let w := w.publish (getEventPubName cfg.Hash address eventId block.Timestamp) eventId
    let w := w.logInfo "Indexing event for address"
    w.saveInteresting env address block.BlockNumber

/-- Body of the outer loop of `indexEvent`: the loop
`for eventIdx, event := range tx.Events` over one receipt. -/
def indexReceipt {σ : Type} (env : Collaborators σ) (cfg : Config) (address : String)
    (block : GetBlockResponse) (w : World σ) (tx : TransactionReceipt) : World σ :=
  tx.Events.enum.foldl (indexEventBody env cfg address block tx) w

/-- Go: `func (i *Indexer) indexEvent(address string, block *starknet.GetBlockResponse)`:
the loop `for _, tx := range block.TransactionReceipts`. -/
def indexEvent {σ : Type} (env : Collaborators σ) (cfg : Config) (address : String)
    (block : GetBlockResponse) (w : World σ) : World σ :=
  block.TransactionReceipts.foldl (indexReceipt env cfg address block) w

/-- Go: `func (i *Indexer) Index(contract config.Contract, block starknet.GetBlockResponse) error`.
The second component is the returned error, `none` for `nil`. `cfg` is `i.config`. -/
def Index {σ : Type} (env : Collaborators σ) (cfg : Config) (contract : Contract)
    (block : GetBlockResponse) (w : World σ) : World σ × Option String :=
  let address := contract.Address
  let w := indexTransaction env cfg address block w
  let w := indexEvent env cfg address block w
  let w := w.saveInteresting env address block.BlockNumber
  (w, none)

/-! ## Pipeline start-up -/

/-- A goroutine started by `indexProcess`, with the arguments it is given. -/
inductive Spawn where
  /-- The statement `go replayBlocks(ctx, i.storage, blocks, blockCh)`. -/
  | replayBlocks (blocks : List Nat)
  /-- The statement `go iterateBlocks(ctx, i.storage, block, blockCh)`. -/
  | iterateBlocks (block : Nat)
  deriving DecidableEq, Repr

/-- Body of the loop of `indexProcess` for one contract: the two goroutines it
starts. `getContractSnapshot` is the function of that name applied to `i.storage`
(its error result is discarded by the caller). -/
def indexProcessBody (getContractSnapshot : String → Nat → ContractSnapshot)
    (startBlock : Nat) (c : Contract) : List Spawn :=
  let idx := getContractSnapshot c.Address startBlock
  let block := startBlock
  let block := if idx.LatestBlock > block then idx.LatestBlock else block
  [Spawn.replayBlocks idx.Blocks, Spawn.iterateBlocks block]

/-- Go: `func indexProcess(ctx, i *Indexer, c config.Config, blockCh)`: the
goroutines started, in the order of the `go` statements. -/
def indexProcess (getContractSnapshot : String → Nat → ContractSnapshot) (c : Config) :
    List Spawn :=
  let startBlock := c.StartBlock
  c.Contracts.foldl (fun acc ct => acc ++ indexProcessBody getContractSnapshot startBlock ct) []

/-! ## Descriptions of the calls, used to state the properties -/

/-- The transactions of the block whose normalized sender is the normalized
contract address, in block order. -/
def matchedTransactions (norm : String → String) (address : String)
    (block : GetBlockResponse) : List Transaction :=
  block.Transactions.filter (fun tx => decide (norm tx.SenderAddress = norm address))

/-- The events of a receipt whose normalized origin is the normalized contract
address, each with its 0-based position among all the events of the receipt. -/
def matchedEvents (norm : String → String) (address : String)
    (tx : TransactionReceipt) : List (Nat × Event) :=
  tx.Events.enum.filter (fun p => decide (norm p.2.FromAddress = norm address))

/-- The calls made for one matching transaction. -/
def txCalls {σ : Type} (env : Collaborators σ) (cfg : Config) (address : String)
    (block : GetBlockResponse) (tx : Transaction) : List Call :=
  [Call.set (txKey address tx.TransactionHash) (env.encodeTx tx).1,
   Call.publish (getTxPubName cfg.Hash address tx.TransactionHash block.Timestamp)
     tx.TransactionHash,
   Call.saveInteresting address block.BlockNumber]

/-- The calls made for one matching event at position `p.1` of the receipt `tx`. -/
def eventCalls {σ : Type} (env : Collaborators σ) (cfg : Config) (address : String)
    (block : GetBlockResponse) (tx : TransactionReceipt) (p : Nat × Event) : List Call :=
  [Call.set (eventKey address (mkEventId tx.TransactionHash p.1))
     (env.encodeEvent (stampEvent (mkEventId tx.TransactionHash p.1) block p.2)).1,
   Call.set (globalEventKey (mkEventId tx.TransactionHash p.1))
     (env.encodeEvent (stampEvent (mkEventId tx.TransactionHash p.1) block p.2)).1,
   Call.publish
     (getEventPubName cfg.Hash address (mkEventId tx.TransactionHash p.1) block.Timestamp)
     (mkEventId tx.TransactionHash p.1),
   Call.saveInteresting address block.BlockNumber]

/-- All the calls of `indexTransaction`, described match by match. -/
def transactionTrace {σ : Type} (env : Collaborators σ) (cfg : Config) (address : String)
    (block : GetBlockResponse) : List Call :=
  (matchedTransactions env.EnsureStarkFelt address block).flatMap (txCalls env cfg address block)

/-- All the calls of `indexEvent`, described receipt by receipt and match by match. -/
def eventTrace {σ : Type} (env : Collaborators σ) (cfg : Config) (address : String)
    (block : GetBlockResponse) : List Call :=
  block.TransactionReceipts.flatMap (fun tx =>
    (matchedEvents env.EnsureStarkFelt address tx).flatMap (eventCalls env cfg address block tx))

/-- All the calls of `Index`, described. -/
def indexTrace {σ : Type} (env : Collaborators σ) (cfg : Config) (address : String)
    (block : GetBlockResponse) : List Call :=
  transactionTrace env cfg address block ++ eventTrace env cfg address block ++
    [Call.saveInteresting address block.BlockNumber]

/-- Effect of one call on the storage. -/
def applyCall {σ : Type} (env : Collaborators σ) (s : σ) : Call → σ
  | Call.set k v => (env.storageSet s k v).1
  | Call.publish _ _ => s
  | Call.saveInteresting a n => env.saveContractInterestingBlock s a n

/-- Effect of a sequence of calls on the storage. -/
def applyCalls {σ : Type} (env : Collaborators σ) (calls : List Call) (s : σ) : σ :=
  calls.foldl (applyCall env) s

/-- A call is a write of a record or a notification (not a checkpoint update). -/
def Call.isSetOrPublish : Call → Bool
  | Call.set _ _ => true
  | Call.publish _ _ => true
  | Call.saveInteresting _ _ => false

/-- A call is a checkpoint update. -/
def Call.isSave : Call → Bool
  | Call.saveInteresting _ _ => true
  | _ => false

/-- A block contains a match for the contract address: a transaction sent by it
or a receipt event originating from it, after normalization. -/
def hasMatch (norm : String → String) (address : String) (block : GetBlockResponse) : Prop :=
  (∃ tx ∈ block.Transactions, norm tx.SenderAddress = norm address) ∨
  (∃ r ∈ block.TransactionReceipts, ∃ e ∈ r.Events, norm e.FromAddress = norm address)

instance hasMatchDecidable (norm : String → String) (address : String)
    (block : GetBlockResponse) : Decidable (hasMatch norm address block) := by
  unfold hasMatch
  infer_instance

/-- Number of matches of the contract address in the block: matching
transactions plus matching receipt events. -/
def matchCount (norm : String → String) (address : String) (block : GetBlockResponse) : Nat :=
  (matchedTransactions norm address block).length +
    (block.TransactionReceipts.map (fun r => (matchedEvents norm address r).length)).sum

/-- What is attempted by a call, whatever its outcome: the key of a `Set`, the
topic and payload of a `Publish`, the arguments of a checkpoint update. -/
inductive Attempt where
  | set (key : Bytes)
  | publish (topic : String) (payload : Bytes)
  | saveInteresting (address : String) (blockNumber : Nat)
  deriving DecidableEq, Repr

/-- The attempt made by a call. -/
def Call.attempt : Call → Attempt
  | Call.set k _ => Attempt.set k
  | Call.publish t p => Attempt.publish t p
  | Call.saveInteresting a n => Attempt.saveInteresting a n

/-- The value written by the last `Set` under key `k` in a sequence of calls, if
there is one. -/
def lastSet (k : Bytes) : List Call → Option Bytes
  | [] => none
  | c :: rest =>
    match lastSet k rest with
    | some v => some v
    | none =>
      match c with
      | Call.set k' v => if k = k' then some v else none
      | _ => none

/-- Value of a string of decimal digits, continuing from `acc`. -/
def decVal (l : List Char) (acc : Nat) : Nat :=
  l.foldl (fun a c => 10 * a + (c.toNat - 48)) acc

/-! ## A concrete instance, used to evaluate the definitions on sample inputs -/

/-- Removes a leading `0x`. -/
def dropHexPrefix : List Char → List Char
  | '0' :: 'x' :: rest => rest
  | l => l

/-- Modelled from the spec: `starknet.EnsureStarkFelt` is defined in
`internal/starknet`, outside this file. The spec says that addresses "may have
inconsistent padding/prefix" and that the canonicalization is idempotent and sends
two textual representations of the same address to the same value. Here: the
digits after an optional `0x`, left-padded with zeros to 64 digits, behind `0x`. -/
def ensureStarkFeltModel (s : String) : String :=
  ⟨'0' :: 'x' :: (List.replicate (64 - (dropHexPrefix s.data).length) '0' ++
    dropHexPrefix s.data)⟩

/-- Modelled from the spec: the Record Store is "a byte-key/byte-value store with
get/set"; its implementation is outside this file. An in-memory store: the list
of the writes made, latest first. -/
abbrev MemStore := List (Bytes × Bytes)

/-- Modelled from the spec: `Get` of the in-memory store, the latest value written
under the key. -/
def memGet : MemStore → Bytes → Option Bytes
  | [], _ => none
  | (k', v) :: rest, k => if k = k' then some v else memGet rest k

/-- Modelled from the spec: `Set` of the in-memory store; it always succeeds. -/
def memSet (s : MemStore) (k v : Bytes) : MemStore × Bool := ((k, v) :: s, false)

/-- Sample collaborators over the in-memory store: the padding normalizer, textual
encoders that never fail, a `Set` that always succeeds and a checkpoint update
that records the block number under `snapshot.<address>`. -/
def sampleEnv : Collaborators MemStore where
  EnsureStarkFelt := ensureStarkFeltModel
  encodeTx := fun tx => (tx.TransactionHash ++ "|" ++ tx.SenderAddress, false)
  encodeEvent := fun e => (e.FromAddress ++ "|" ++ e.EventId ++ "|" ++ toString e.RecordedAt, false)
  storageSet := memSet
  saveContractInterestingBlock := fun s a n => ("snapshot." ++ a, Nat.repr n) :: s

/-- Sample collaborators whose encoders and `Set` fail on every call (the store
is left unchanged by a failed `Set`). -/
def failingEnv : Collaborators MemStore where
  EnsureStarkFelt := ensureStarkFeltModel
  encodeTx := fun _ => ("", true)
  encodeEvent := fun _ => ("", true)
  storageSet := fun s _ _ => (s, true)
  saveContractInterestingBlock := fun s _ _ => s

/-- Sample configuration with application hash `H1` and one contract `0xabc`. -/
def sampleConfig : Config := ⟨"app", "H1", 0, [⟨"0xabc"⟩]⟩

/-- Sample block 7 at time 1000: one transaction sent by `0xabc`, one by `0xdef`;
one receipt with an event from `0xdef` and then an event from `0x0abc`. -/
def sampleBlock : GetBlockResponse :=
  { BlockNumber := 7
    Timestamp := 1000
    Transactions := [⟨"0xaa", "0xabc"⟩, ⟨"0xbb", "0xdef"⟩]
    TransactionReceipts := [⟨"0xdead", [⟨"0xdef", "", 0⟩, ⟨"0x0abc", "", 0⟩]⟩] }

/-- Sample block 8 at time 1001 in which nothing concerns `0xabc`. -/
def quietBlock : GetBlockResponse :=
  { BlockNumber := 8
    Timestamp := 1001
    Transactions := [⟨"0xbb", "0xdef"⟩]
    TransactionReceipts := [⟨"0xbeef", [⟨"0xdef", "", 0⟩]⟩] }

/-- Sample block without transactions and without receipts. -/
def emptyBlock : GetBlockResponse := ⟨9, 1002, [], []⟩

/-- Sample block whose timestamp is `2 ^ 63`, with one event from `0xabc`. -/
def lateBlock : GetBlockResponse :=
  { BlockNumber := 10
    Timestamp := 2 ^ 63
    Transactions := []
    TransactionReceipts := [⟨"0xdead", [⟨"0xabc", "", 0⟩]⟩] }

end Indexer

namespace Indexer

/-! ## The loops make exactly the described calls -/

theorem body_trace_foldl {σ α : Type} (env : Collaborators σ) (step : World σ → α → World σ)
    (tr : α → List Call)
    (h : ∀ w a, (step w a).calls = w.calls ++ tr a ∧
      (step w a).storage = applyCalls env (tr a) w.storage) :
    ∀ (l : List α) (w : World σ), (l.foldl step w).calls = w.calls ++ l.flatMap tr ∧
      (l.foldl step w).storage = applyCalls env (l.flatMap tr) w.storage := by
  intro l
  induction l with
  | nil => intro w; simp [applyCalls]
  | cons a l ih =>
    intro w
    obtain ⟨h1, h2⟩ := h w a
    obtain ⟨i1, i2⟩ := ih (step w a)
    constructor
    · simp [List.foldl_cons, i1, h1, List.append_assoc]
    · simp only [List.foldl_cons, i2, h2, List.flatMap_cons, applyCalls, List.foldl_append]

theorem flatMap_ite_eq_filter {α β : Type} (p : α → Bool) (f : α → List β) (l : List α) :
    l.flatMap (fun a => if p a then f a else []) = (l.filter p).flatMap f := by
  induction l with
  | nil => rfl
  | cons a l ih =>
    by_cases hp : p a <;> simp [List.filter_cons, hp, ih]

theorem indexTransactionBody_trace {σ : Type} (env : Collaborators σ) (cfg : Config)
    (address : String) (block : GetBlockResponse) (w : World σ) (tx : Transaction) :
    (indexTransactionBody env cfg address block w tx).calls = w.calls ++
        (if decide (env.EnsureStarkFelt tx.SenderAddress = env.EnsureStarkFelt address)
          then txCalls env cfg address block tx else []) ∧
      (indexTransactionBody env cfg address block w tx).storage = applyCalls env
        (if decide (env.EnsureStarkFelt tx.SenderAddress = env.EnsureStarkFelt address)
          then txCalls env cfg address block tx else []) w.storage := by
  unfold indexTransactionBody
  by_cases hm : env.EnsureStarkFelt tx.SenderAddress = env.EnsureStarkFelt address
  · simp only [hm, ne_eq, not_true_eq_false, if_false, decide_True, if_true]
    cases h1 : (env.encodeTx tx).2 <;>
    cases h2 : (env.storageSet w.storage (txKey address tx.TransactionHash) (env.encodeTx tx).1).2 <;>
    simp [World.storageSet, World.logError, World.logInfo, World.publish, World.saveInteresting,
      txCalls, applyCalls, applyCall, h1, h2]
  · simp [hm, applyCalls]

theorem indexTransaction_trace {σ : Type} (env : Collaborators σ) (cfg : Config)
    (address : String) (block : GetBlockResponse) (w : World σ) :
    (indexTransaction env cfg address block w).calls =
        w.calls ++ transactionTrace env cfg address block ∧
      (indexTransaction env cfg address block w).storage =
        applyCalls env (transactionTrace env cfg address block) w.storage := by
  have h := body_trace_foldl env (indexTransactionBody env cfg address block) _
    (fun w tx => indexTransactionBody_trace env cfg address block w tx) block.Transactions w
  rw [flatMap_ite_eq_filter] at h
  exact h


theorem indexEventBody_trace {σ : Type} (env : Collaborators σ) (cfg : Config)
    (address : String) (block : GetBlockResponse) (tx : TransactionReceipt) (w : World σ)
    (p : Nat × Event) :
    (indexEventBody env cfg address block tx w p).calls = w.calls ++
        (if decide (env.EnsureStarkFelt p.2.FromAddress = env.EnsureStarkFelt address)
          then eventCalls env cfg address block tx p else []) ∧
      (indexEventBody env cfg address block tx w p).storage = applyCalls env
        (if decide (env.EnsureStarkFelt p.2.FromAddress = env.EnsureStarkFelt address)
          then eventCalls env cfg address block tx p else []) w.storage := by
  unfold indexEventBody
  by_cases hm : env.EnsureStarkFelt p.2.FromAddress = env.EnsureStarkFelt address
  · simp only [hm, ne_eq, not_true_eq_false, if_false, decide_True, if_true]
    cases h1 : (env.encodeEvent (stampEvent (mkEventId tx.TransactionHash p.1) block p.2)).2 <;>
    cases h2 : (env.storageSet w.storage (eventKey address (mkEventId tx.TransactionHash p.1))
      (env.encodeEvent (stampEvent (mkEventId tx.TransactionHash p.1) block p.2)).1).2 <;>
    cases h3 : (env.storageSet
      (env.storageSet w.storage (eventKey address (mkEventId tx.TransactionHash p.1))
        (env.encodeEvent (stampEvent (mkEventId tx.TransactionHash p.1) block p.2)).1).1
      (globalEventKey (mkEventId tx.TransactionHash p.1))
      (env.encodeEvent (stampEvent (mkEventId tx.TransactionHash p.1) block p.2)).1).2 <;>
    simp [World.storageSet, World.logError, World.logInfo, World.publish, World.saveInteresting,
      eventCalls, applyCalls, applyCall, h1, h2, h3]
  · simp [hm, applyCalls]

theorem indexReceipt_trace {σ : Type} (env : Collaborators σ) (cfg : Config)
    (address : String) (block : GetBlockResponse) (w : World σ) (tx : TransactionReceipt) :
    (indexReceipt env cfg address block w tx).calls = w.calls ++
        (matchedEvents env.EnsureStarkFelt address tx).flatMap
          (eventCalls env cfg address block tx) ∧
      (indexReceipt env cfg address block w tx).storage = applyCalls env
        ((matchedEvents env.EnsureStarkFelt address tx).flatMap
          (eventCalls env cfg address block tx)) w.storage := by
  have h := body_trace_foldl env (indexEventBody env cfg address block tx) _
    (fun w p => indexEventBody_trace env cfg address block tx w p) tx.Events.enum w
  rw [flatMap_ite_eq_filter] at h
  exact h

theorem indexEvent_trace {σ : Type} (env : Collaborators σ) (cfg : Config)
    (address : String) (block : GetBlockResponse) (w : World σ) :
    (indexEvent env cfg address block w).calls =
        w.calls ++ eventTrace env cfg address block ∧
      (indexEvent env cfg address block w).storage =
        applyCalls env (eventTrace env cfg address block) w.storage :=
  body_trace_foldl env (indexReceipt env cfg address block) _
    (fun w tx => indexReceipt_trace env cfg address block w tx) block.TransactionReceipts w

theorem Index_trace {σ : Type} (env : Collaborators σ) (cfg : Config) (contract : Contract)
    (block : GetBlockResponse) (w : World σ) :
    (Index env cfg contract block w).1.calls =
        w.calls ++ indexTrace env cfg contract.Address block ∧
      (Index env cfg contract block w).1.storage =
        applyCalls env (indexTrace env cfg contract.Address block) w.storage := by
  obtain ⟨t1, t2⟩ := indexTransaction_trace env cfg contract.Address block w
  obtain ⟨e1, e2⟩ := indexEvent_trace env cfg contract.Address block
    (indexTransaction env cfg contract.Address block w)
  constructor
  · simp [Index, World.saveInteresting, indexTrace, e1, t1, List.append_assoc]
  · simp [Index, World.saveInteresting, indexTrace, e2, t2, applyCalls, List.foldl_append,
      applyCall]

/-! ## Formats -/

theorem getEventPubName_eq (a c e : String) (t : Nat) :
    getEventPubName a c e t = a ++ ".event." ++ c ++ "." ++ e ++ "." ++ Nat.repr t := by
  apply String.ext
  simp [getEventPubName, sprintf, sprintfAux]

theorem getTxPubName_eq (a c h : String) (t : Nat) :
    getTxPubName a c h t = a ++ ".tx." ++ c ++ "." ++ h ++ "." ++ Nat.repr t := by
  apply String.ext
  simp [getTxPubName, sprintf, sprintfAux]

theorem txKey_eq (a h : String) : txKey a h = a ++ ".tx." ++ h := by
  apply String.ext
  simp [txKey, sprintf, sprintfAux]

theorem mkEventId_eq (h : String) (i : Nat) : mkEventId h i = h ++ "_" ++ Nat.repr i := by
  apply String.ext
  simp [mkEventId, sprintf, sprintfAux]

theorem eventKey_eq (a e : String) : eventKey a e = a ++ ".event." ++ e := by
  apply String.ext
  simp [eventKey, sprintf, sprintfAux]

theorem globalEventKey_eq (e : String) : globalEventKey e = "event." ++ e := by
  apply String.ext
  simp [globalEventKey, sprintf, sprintfAux]

/-! ## Decimal rendering -/

theorem digitChar_val (k : Nat) (h : k < 10) : (Nat.digitChar k).toNat - 48 = k := by
  interval_cases k <;> rfl

theorem digitChar_ne_underscore (k : Nat) (h : k < 10) : Nat.digitChar k ≠ '_' := by
  interval_cases k <;> decide

theorem toDigitsCore_val : ∀ (fuel n : Nat) (ds : List Char), n < fuel →
    decVal (Nat.toDigitsCore 10 fuel n ds) 0 = decVal ds n := by
  intro fuel
  induction fuel with
  | zero => intro n ds h; omega
  | succ fuel ih =>
    intro n ds h
    simp only [Nat.toDigitsCore]
    split
    · rename_i h0
      have hn : n % 10 = n := by omega
      have hv := digitChar_val (n % 10) (Nat.mod_lt _ (by decide))
      simp only [decVal, List.foldl_cons, Nat.mul_zero, Nat.zero_add, hv]
      rw [hn]
    · rename_i h0
      rw [ih (n / 10) _ (by omega)]
      have := Nat.div_add_mod n 10
      simp [decVal, digitChar_val (n % 10) (Nat.mod_lt _ (by decide)), this]

theorem toDigitsCore_no_underscore : ∀ (fuel n : Nat) (ds : List Char), '_' ∉ ds →
    '_' ∉ Nat.toDigitsCore 10 fuel n ds := by
  intro fuel
  induction fuel with
  | zero => intro n ds h; simpa [Nat.toDigitsCore] using h
  | succ fuel ih =>
    intro n ds h
    have hd : '_' ≠ Nat.digitChar (n % 10) :=
      fun e => digitChar_ne_underscore (n % 10) (Nat.mod_lt _ (by decide)) e.symm
    simp only [Nat.toDigitsCore]
    split
    · simp [hd, h]
    · exact ih _ _ (by simp [hd, h])

theorem repr_injective (a b : Nat) (h : Nat.repr a = Nat.repr b) : a = b := by
  have h2 : Nat.toDigits 10 a = Nat.toDigits 10 b := by
    have := congrArg String.data h
    simpa [Nat.repr, List.asString] using this
  have ha := toDigitsCore_val (a + 1) a [] (by omega)
  have hb := toDigitsCore_val (b + 1) b [] (by omega)
  simp only [Nat.toDigits] at h2
  rw [h2, hb] at ha
  simpa [decVal] using ha.symm

theorem repr_no_underscore (a : Nat) : '_' ∉ (Nat.repr a).data := by
  simpa [Nat.repr, List.asString, Nat.toDigits] using
    toDigitsCore_no_underscore (a + 1) a [] (by simp)

theorem split_last_underscore : ∀ (l1 l2 d1 d2 : List Char), '_' ∉ d1 → '_' ∉ d2 →
    l1 ++ '_' :: d1 = l2 ++ '_' :: d2 → l1 = l2 ∧ d1 = d2 := by
  intro l1
  induction l1 with
  | nil =>
    intro l2 d1 d2 h1 h2 h
    cases l2 with
    | nil => simpa using h
    | cons c l2 =>
      simp only [List.nil_append, List.cons_append, List.cons.injEq] at h
      exact absurd (by rw [h.2]; simp) h1
  | cons c l1 ih =>
    intro l2 d1 d2 h1 h2 h
    cases l2 with
    | nil =>
      simp only [List.nil_append, List.cons_append, List.cons.injEq] at h
      exact absurd (by rw [← h.2]; simp) h2
    | cons c2 l2 =>
      simp only [List.cons_append, List.cons.injEq] at h
      obtain ⟨e1, e2⟩ := ih l2 d1 d2 h1 h2 h.2
      exact ⟨by rw [h.1, e1], e2⟩

theorem mkEventId_injective (h1 h2 : String) (i1 i2 : Nat)
    (h : mkEventId h1 i1 = mkEventId h2 i2) : h1 = h2 ∧ i1 = i2 := by
  rw [mkEventId_eq, mkEventId_eq] at h
  have hd := congrArg String.data h
  simp only [String.data_append] at hd
  rw [List.append_assoc, List.append_assoc] at hd
  obtain ⟨e1, e2⟩ := split_last_underscore h1.data h2.data _ _
    (repr_no_underscore i1) (repr_no_underscore i2) hd
  exact ⟨String.ext e1, repr_injective i1 i2 (String.ext e2)⟩

/-! ## Topic format -/

/-- C9: for every application hash, contract address, event id and timestamp,
`getEventPubName` returns the application hash, `.event.`, the contract address,
`.`, the event id, `.` and the timestamp in decimal; for `H1`, `0xabc`, `0xdead_0`
and 1000 this is `H1.event.0xabc.0xdead_0.1000`. -/
theorem getEventPubName_format (appHash contractAddress eventId : String) (timestamp : Nat) :
    getEventPubName appHash contractAddress eventId timestamp =
        appHash ++ ".event." ++ contractAddress ++ "." ++ eventId ++ "." ++ Nat.repr timestamp ∧
      getEventPubName "H1" "0xabc" "0xdead_0" 1000 = "H1.event.0xabc.0xdead_0.1000" :=
  ⟨getEventPubName_eq appHash contractAddress eventId timestamp, by decide⟩

/-! ## Event identifiers -/

/-- C10: event ids are injective. If the id built from the receipt hash `h1` and
the index `i1` equals the id built from `h2` and `i2`, then `h1 = h2` and
`i1 = i2`; the same holds when only the global storage keys `event.<id>` are
equal, so events at different (hash, index) positions never share that key. -/
theorem eventId_injective (h1 h2 : String) (i1 i2 : Nat) :
    (mkEventId h1 i1 = mkEventId h2 i2 → h1 = h2 ∧ i1 = i2) ∧
      (globalEventKey (mkEventId h1 i1) = globalEventKey (mkEventId h2 i2) →
        h1 = h2 ∧ i1 = i2) := by
  refine ⟨mkEventId_injective h1 h2 i1 i2, fun hk => ?_⟩
  rw [globalEventKey_eq, globalEventKey_eq] at hk
  have hd := congrArg String.data hk
  simp only [String.data_append, List.append_cancel_left_eq] at hd
  exact mkEventId_injective h1 h2 i1 i2 (String.ext hd)

/-- Witness for C10 at the hash `a_1` (which itself contains the separator) and
index 2. -/
theorem eventId_injective_witness :
    mkEventId "a_1" 2 = mkEventId "a_1" 2 ∧
      globalEventKey (mkEventId "a_1" 2) = globalEventKey (mkEventId "a_1" 2) ∧
      ("a_1" = "a_1" ∧ 2 = 2) :=
  ⟨rfl, rfl, (eventId_injective "a_1" "a_1" 2 2).2 rfl⟩

/-! ## Matches -/

theorem matchedTransactions_eq_nil_iff (norm : String → String) (address : String)
    (block : GetBlockResponse) :
    matchedTransactions norm address block = [] ↔
      ¬ ∃ tx ∈ block.Transactions, norm tx.SenderAddress = norm address := by
  simp [matchedTransactions, List.filter_eq_nil_iff]

theorem matchedEvents_map_snd (norm : String → String) (address : String)
    (r : TransactionReceipt) :
    (matchedEvents norm address r).map Prod.snd =
      r.Events.filter (fun e => decide (norm e.FromAddress = norm address)) := by
  have h := List.filter_map (p := fun e : Event => decide (norm e.FromAddress = norm address))
    (f := Prod.snd) (l := r.Events.enum)
  rw [List.enum_map_snd] at h
  rw [h]
  rfl

theorem matchedEvents_eq_nil_iff (norm : String → String) (address : String)
    (r : TransactionReceipt) :
    matchedEvents norm address r = [] ↔
      ¬ ∃ e ∈ r.Events, norm e.FromAddress = norm address := by
  rw [← List.map_eq_nil_iff (f := Prod.snd), matchedEvents_map_snd]
  simp [List.filter_eq_nil_iff]

theorem sum_map_length_eq_zero_iff {α β : Type} (f : α → List β) (l : List α) :
    (l.map (fun a => (f a).length)).sum = 0 ↔ ∀ a ∈ l, f a = [] := by
  induction l with
  | nil => simp
  | cons a l ih => simp [ih, List.length_eq_zero]

theorem matchCount_eq_zero_iff (norm : String → String) (address : String)
    (block : GetBlockResponse) :
    matchCount norm address block = 0 ↔ ¬ hasMatch norm address block := by
  unfold matchCount hasMatch
  rw [Nat.add_eq_zero_iff, List.length_eq_zero, matchedTransactions_eq_nil_iff,
    sum_map_length_eq_zero_iff, not_or]
  constructor
  · rintro ⟨h1, h2⟩
    refine ⟨h1, ?_⟩
    rintro ⟨r, hr, he⟩
    exact (matchedEvents_eq_nil_iff norm address r).1 (h2 r hr) he
  · rintro ⟨h1, h2⟩
    refine ⟨h1, fun r hr => (matchedEvents_eq_nil_iff norm address r).2 ?_⟩
    exact fun he => h2 ⟨r, hr, he⟩

theorem indexTrace_of_no_match {σ : Type} (env : Collaborators σ) (cfg : Config)
    (address : String) (block : GetBlockResponse)
    (h : ¬ hasMatch env.EnsureStarkFelt address block) :
    indexTrace env cfg address block = [Call.saveInteresting address block.BlockNumber] := by
  have h0 := (matchCount_eq_zero_iff env.EnsureStarkFelt address block).2 h
  unfold matchCount at h0
  rw [Nat.add_eq_zero_iff, List.length_eq_zero, sum_map_length_eq_zero_iff] at h0
  have he : eventTrace env cfg address block = [] := by
    unfold eventTrace
    rw [List.flatMap_eq_nil_iff]
    intro r hr
    rw [h0.2 r hr]
    rfl
  simp [indexTrace, transactionTrace, h0.1, he]

theorem filter_isSave_flatMap {α : Type} (f : α → List Call) (c : Call)
    (h : ∀ a, (f a).filter Call.isSave = [c]) (l : List α) :
    (l.flatMap f).filter Call.isSave = List.replicate l.length c := by
  induction l with
  | nil => rfl
  | cons a l ih => simp [List.filter_append, h, ih, List.replicate_succ]

theorem filter_isSave_eventTrace {σ : Type} (env : Collaborators σ) (cfg : Config)
    (address : String) (block : GetBlockResponse) :
    (eventTrace env cfg address block).filter Call.isSave =
      List.replicate
        (block.TransactionReceipts.map
          (fun r => (matchedEvents env.EnsureStarkFelt address r).length)).sum
        (Call.saveInteresting address block.BlockNumber) := by
  unfold eventTrace
  induction block.TransactionReceipts with
  | nil => rfl
  | cons r l ih =>
    rw [List.flatMap_cons, List.filter_append, ih,
      filter_isSave_flatMap (eventCalls env cfg address block r)
        (Call.saveInteresting address block.BlockNumber) (fun p => rfl)]
    rw [List.map_cons, List.sum_cons, List.replicate_add]

theorem filter_isSave_indexTrace {σ : Type} (env : Collaborators σ) (cfg : Config)
    (address : String) (block : GetBlockResponse) :
    (indexTrace env cfg address block).filter Call.isSave =
      List.replicate (1 + matchCount env.EnsureStarkFelt address block)
        (Call.saveInteresting address block.BlockNumber) := by
  unfold indexTrace transactionTrace matchCount
  rw [List.filter_append, List.filter_append, filter_isSave_eventTrace,
    filter_isSave_flatMap (txCalls env cfg address block)
      (Call.saveInteresting address block.BlockNumber) (fun p => rfl)]
  have h1 : [Call.saveInteresting address block.BlockNumber].filter Call.isSave =
      List.replicate 1 (Call.saveInteresting address block.BlockNumber) := rfl
  rw [h1, ← List.replicate_add, ← List.replicate_add]
  congr 1
  omega

/-! ## Transaction matching -/

/-- C3: for every application hash (held by `cfg`), contract address and block,
`indexTransaction` makes, for exactly the transactions whose normalized sender
equals the normalized address and in block order, one `Set` under
`<address>.tx.<txHash>` with the serialized transaction and one `Publish` on
`<hash>.tx.<address>.<txHash>.<timestamp in decimal>` with the transaction hash as
payload (each followed by the checkpoint call); nothing is done for the other
transactions. -/
theorem indexTransaction_matching {σ : Type} (env : Collaborators σ) (cfg : Config)
    (address : String) (block : GetBlockResponse) (w : World σ) :
    (indexTransaction env cfg address block w).calls = w.calls ++
      (block.Transactions.filter (fun tx =>
        decide (env.EnsureStarkFelt tx.SenderAddress = env.EnsureStarkFelt address))).flatMap
        (fun tx =>
          [Call.set (address ++ ".tx." ++ tx.TransactionHash) (env.encodeTx tx).1,
           Call.publish (cfg.Hash ++ ".tx." ++ address ++ "." ++ tx.TransactionHash ++ "." ++
             Nat.repr block.Timestamp) tx.TransactionHash,
           Call.saveInteresting address block.BlockNumber]) := by
  have h := (indexTransaction_trace env cfg address block w).1
  simp only [transactionTrace, matchedTransactions] at h
  rw [h]
  congr 2
  funext tx
  simp only [txCalls, txKey_eq, getTxPubName_eq]

/-! ## Event matching -/

theorem toInt64_of_lt (x : Nat) (h : x < 2 ^ 63) : toInt64 x = (x : Int) := by
  have h2 : x % 2 ^ 64 = x := Nat.mod_eq_of_lt (by omega)
  unfold toInt64
  rw [h2, if_pos h]

/-- C4, as the code has it: for every contract address and block, `indexEvent`
handles exactly the receipt events whose normalized origin equals the normalized
address, receipt by receipt and in event order. For each one the id is
`<receipt hash>_<i>` with `i` the 0-based position among all events of the
receipt, the encoded event carries that id and
`RecordedAt = time.Unix(int64(block.Timestamp), 0)`, the same bytes are stored
under `<address>.event.<id>` and `event.<id>`, and the id is published on
`<hash>.event.<address>.<id>.<timestamp in decimal>` (then the checkpoint call);
nothing is done for the other events. `RecordedAt` is the block's timestamp
whenever that timestamp is below `2 ^ 63`. -/
theorem indexEvent_matching {σ : Type} (env : Collaborators σ) (cfg : Config)
    (address : String) (block : GetBlockResponse) (w : World σ) :
    (indexEvent env cfg address block w).calls = w.calls ++
        block.TransactionReceipts.flatMap (fun r =>
          (r.Events.enum.filter (fun p =>
            decide (env.EnsureStarkFelt p.2.FromAddress = env.EnsureStarkFelt address))).flatMap
            (fun p =>
              [Call.set (address ++ ".event." ++ (r.TransactionHash ++ "_" ++ Nat.repr p.1))
                 (env.encodeEvent
                   { p.2 with EventId := r.TransactionHash ++ "_" ++ Nat.repr p.1,
                              RecordedAt := toInt64 block.Timestamp }).1,
               Call.set ("event." ++ (r.TransactionHash ++ "_" ++ Nat.repr p.1))
                 (env.encodeEvent
                   { p.2 with EventId := r.TransactionHash ++ "_" ++ Nat.repr p.1,
                              RecordedAt := toInt64 block.Timestamp }).1,
               Call.publish (cfg.Hash ++ ".event." ++ address ++ "." ++
                 (r.TransactionHash ++ "_" ++ Nat.repr p.1) ++ "." ++ Nat.repr block.Timestamp)
                 (r.TransactionHash ++ "_" ++ Nat.repr p.1),
               Call.saveInteresting address block.BlockNumber])) ∧
      (block.Timestamp < 2 ^ 63 → toInt64 block.Timestamp = (block.Timestamp : Int)) := by
  refine ⟨?_, toInt64_of_lt block.Timestamp⟩
  have h := (indexEvent_trace env cfg address block w).1
  simp only [eventTrace, matchedEvents] at h
  rw [h]
  congr 2
  funext r
  congr 1
  funext p
  simp only [eventCalls, eventKey_eq, globalEventKey_eq, getEventPubName_eq, mkEventId_eq,
    stampEvent, timeUnix]

/-- Witness for C4 on the sample block (timestamp 1000): the second event of the
receipt `0xdead` comes from `0x0abc`, which normalizes like `0xabc`. -/
theorem indexEvent_matching_witness :
    sampleBlock.Timestamp < 2 ^ 63 ∧
      (indexEvent sampleEnv sampleConfig "0xabc" sampleBlock (World.init [])).calls =
        [Call.set "0xabc.event.0xdead_1" "0x0abc|0xdead_1|1000",
         Call.set "event.0xdead_1" "0x0abc|0xdead_1|1000",
         Call.publish "H1.event.0xabc.0xdead_1.1000" "0xdead_1",
         Call.saveInteresting "0xabc" 7] ∧
      toInt64 sampleBlock.Timestamp = (sampleBlock.Timestamp : Int) :=
  ⟨by decide,
   ((indexEvent_matching sampleEnv sampleConfig "0xabc" sampleBlock (World.init [])).1).trans
     (by decide),
   (indexEvent_matching sampleEnv sampleConfig "0xabc" sampleBlock (World.init [])).2
     (by decide)⟩

/-- C4 fails as stated: for a block whose timestamp is `2 ^ 63` the stored event
carries `RecordedAt = -2 ^ 63` (the value of `int64(block.Timestamp)`), not the
block's timestamp, while the topic carries the timestamp itself. -/
theorem indexEvent_recordedAt_counterexample :
    (stampEvent "0xdead_0" lateBlock ⟨"0xabc", "", 0⟩).RecordedAt = -9223372036854775808 ∧
      (lateBlock.Timestamp : Int) = 9223372036854775808 ∧
      (indexEvent sampleEnv sampleConfig "0xabc" lateBlock (World.init [])).calls =
        [Call.set "0xabc.event.0xdead_0" "0xabc|0xdead_0|-9223372036854775808",
         Call.set "event.0xdead_0" "0xabc|0xdead_0|-9223372036854775808",
         Call.publish "H1.event.0xabc.0xdead_0.9223372036854775808" "0xdead_0",
         Call.saveInteresting "0xabc" 10] ∧
      (indexEvent sampleEnv sampleConfig "0xabc" lateBlock (World.init [])).calls ≠
        [Call.set "0xabc.event.0xdead_0"
           (sampleEnv.encodeEvent ⟨"0xabc", "0xdead_0", (lateBlock.Timestamp : Int)⟩).1,
         Call.set "event.0xdead_0"
           (sampleEnv.encodeEvent ⟨"0xabc", "0xdead_0", (lateBlock.Timestamp : Int)⟩).1,
         Call.publish "H1.event.0xabc.0xdead_0.9223372036854775808" "0xdead_0",
         Call.saveInteresting "0xabc" 10] := by
  refine ⟨by decide, by decide, by decide, by decide⟩

/-! ## Checkpoint calls -/

/-- C1, as the code has it: for every contract address and block,
`saveContractInterestingBlock` is invoked with the block's number once for each
match and once more at the end of `Index`, match or no match; the number of
matches is positive exactly when the block contains a matching transaction or a
matching receipt event, so the function is invoked for every block and more than
once if and only if a match occurred. -/
theorem Index_checkpoint_calls {σ : Type} (env : Collaborators σ) (cfg : Config)
    (contract : Contract) (block : GetBlockResponse) (s : σ) :
    (Index env cfg contract block (World.init s)).1.calls.filter Call.isSave =
        List.replicate (1 + matchCount env.EnsureStarkFelt contract.Address block)
          (Call.saveInteresting contract.Address block.BlockNumber) ∧
      (0 < matchCount env.EnsureStarkFelt contract.Address block ↔
        hasMatch env.EnsureStarkFelt contract.Address block) := by
  constructor
  · rw [(Index_trace env cfg contract block (World.init s)).1]
    simp only [World.init, List.nil_append]
    exact filter_isSave_indexTrace env cfg contract.Address block
  · rw [Nat.pos_iff_ne_zero, ne_eq, matchCount_eq_zero_iff, not_not]

/-- C1 fails as stated: in the sample block 8 nothing matches `0xabc`, yet `Index`
invokes `saveContractInterestingBlock` for `0xabc` and block 8. -/
theorem Index_checkpoint_counterexample :
    ¬ hasMatch sampleEnv.EnsureStarkFelt "0xabc" quietBlock ∧
      Call.saveInteresting "0xabc" 8 ∈
        (Index sampleEnv sampleConfig ⟨"0xabc"⟩ quietBlock (World.init [])).1.calls := by
  refine ⟨by decide, by decide⟩

/-! ## Blocks without a match -/

/-- C5: for every contract address and every block in which no transaction sender
and no receipt event origin equals the address after normalization, `Index` makes
no `Set` and no `Publish`; its only call is the checkpoint update with this
block's number, and the storage is changed by that update alone. -/
theorem Index_no_match {σ : Type} (env : Collaborators σ) (cfg : Config)
    (contract : Contract) (block : GetBlockResponse) (w : World σ)
    (h : ¬ hasMatch env.EnsureStarkFelt contract.Address block) :
    (Index env cfg contract block w).1.calls =
        w.calls ++ [Call.saveInteresting contract.Address block.BlockNumber] ∧
      (Index env cfg contract block w).1.storage =
        env.saveContractInterestingBlock w.storage contract.Address block.BlockNumber := by
  obtain ⟨h1, h2⟩ := Index_trace env cfg contract block w
  rw [indexTrace_of_no_match env cfg contract.Address block h] at h1 h2
  exact ⟨h1, h2⟩

/-- Witness for C5 on the sample block 8, where the only transaction and the only
event come from `0xdef`. -/
theorem Index_no_match_witness :
    ¬ hasMatch sampleEnv.EnsureStarkFelt "0xabc" quietBlock ∧
      (Index sampleEnv sampleConfig ⟨"0xabc"⟩ quietBlock (World.init [])).1.calls =
        [] ++ [Call.saveInteresting "0xabc" 8] ∧
      (Index sampleEnv sampleConfig ⟨"0xabc"⟩ quietBlock (World.init [])).1.storage =
        [("snapshot.0xabc", "8")] :=
  ⟨by decide,
   (Index_no_match sampleEnv sampleConfig ⟨"0xabc"⟩ quietBlock (World.init [])
     (by decide)).1,
   (Index_no_match sampleEnv sampleConfig ⟨"0xabc"⟩ quietBlock (World.init [])
     (by decide)).2.trans (by decide)⟩

/-! ## Equal normalized addresses -/

theorem matchedTransactions_congr (norm : String → String) (a1 a2 : String)
    (block : GetBlockResponse) (h : norm a1 = norm a2) :
    matchedTransactions norm a1 block = matchedTransactions norm a2 block := by
  simp only [matchedTransactions, h]

theorem matchedEvents_congr (norm : String → String) (a1 a2 : String)
    (r : TransactionReceipt) (h : norm a1 = norm a2) :
    matchedEvents norm a1 r = matchedEvents norm a2 r := by
  simp only [matchedEvents, h]

/-- C2, as the code has it: for every block, application hash and two address
strings with the same normalization, `Index` matches the same transactions and
the same events for both; its calls for the second address are those made for the
matches of the first, with the same stored values and payloads in the same order,
but the storage keys and the topics are built from the address string as passed
(not from its normalization). -/
theorem Index_same_normalized_address {σ : Type} (env : Collaborators σ) (cfg : Config)
    (a1 a2 : String) (block : GetBlockResponse) (w : World σ)
    (h : env.EnsureStarkFelt a1 = env.EnsureStarkFelt a2) :
    matchedTransactions env.EnsureStarkFelt a1 block =
        matchedTransactions env.EnsureStarkFelt a2 block ∧
      (∀ r, matchedEvents env.EnsureStarkFelt a1 r = matchedEvents env.EnsureStarkFelt a2 r) ∧
      (Index env cfg ⟨a1⟩ block w).1.calls = w.calls ++
        ((matchedTransactions env.EnsureStarkFelt a1 block).flatMap (txCalls env cfg a1 block) ++
          block.TransactionReceipts.flatMap (fun r =>
            (matchedEvents env.EnsureStarkFelt a1 r).flatMap (eventCalls env cfg a1 block r)) ++
          [Call.saveInteresting a1 block.BlockNumber]) ∧
      (Index env cfg ⟨a2⟩ block w).1.calls = w.calls ++
        ((matchedTransactions env.EnsureStarkFelt a1 block).flatMap (txCalls env cfg a2 block) ++
          block.TransactionReceipts.flatMap (fun r =>
            (matchedEvents env.EnsureStarkFelt a1 r).flatMap (eventCalls env cfg a2 block r)) ++
          [Call.saveInteresting a2 block.BlockNumber]) := by
  refine ⟨matchedTransactions_congr _ a1 a2 block h,
    fun r => matchedEvents_congr _ a1 a2 r h, ?_, ?_⟩
  · exact (Index_trace env cfg ⟨a1⟩ block w).1
  · rw [(Index_trace env cfg ⟨a2⟩ block w).1]
    simp only [indexTrace, transactionTrace, eventTrace,
      matchedTransactions_congr _ a1 a2 block h]
    congr 4
    funext r
    rw [matchedEvents_congr _ a1 a2 r h]

/-- Witness for C2 with `0xabc` and `0x0abc` on the sample block. -/
theorem Index_same_normalized_address_witness :
    sampleEnv.EnsureStarkFelt "0xabc" = sampleEnv.EnsureStarkFelt "0x0abc" ∧
      matchedTransactions sampleEnv.EnsureStarkFelt "0xabc" sampleBlock =
        matchedTransactions sampleEnv.EnsureStarkFelt "0x0abc" sampleBlock :=
  ⟨by decide,
   (Index_same_normalized_address sampleEnv sampleConfig "0xabc" "0x0abc" sampleBlock
     (World.init []) (by decide)).1⟩

/-- C2 fails as stated: `0xabc` and `0x0abc` have the same normalization, but on
the sample block `Index` writes under `0xabc.tx.0xaa` for the first and under
`0x0abc.tx.0xaa` for the second, and the topics differ in the same way. -/
theorem Index_keys_counterexample :
    sampleEnv.EnsureStarkFelt "0xabc" = sampleEnv.EnsureStarkFelt "0x0abc" ∧
      (Index sampleEnv sampleConfig ⟨"0xabc"⟩ sampleBlock (World.init [])).1.calls.map
          Call.attempt =
        [Attempt.set "0xabc.tx.0xaa",
         Attempt.publish "H1.tx.0xabc.0xaa.1000" "0xaa",
         Attempt.saveInteresting "0xabc" 7,
         Attempt.set "0xabc.event.0xdead_1",
         Attempt.set "event.0xdead_1",
         Attempt.publish "H1.event.0xabc.0xdead_1.1000" "0xdead_1",
         Attempt.saveInteresting "0xabc" 7,
         Attempt.saveInteresting "0xabc" 7] ∧
      (Index sampleEnv sampleConfig ⟨"0x0abc"⟩ sampleBlock (World.init [])).1.calls.map
          Call.attempt =
        [Attempt.set "0x0abc.tx.0xaa",
         Attempt.publish "H1.tx.0x0abc.0xaa.1000" "0xaa",
         Attempt.saveInteresting "0x0abc" 7,
         Attempt.set "0x0abc.event.0xdead_1",
         Attempt.set "event.0xdead_1",
         Attempt.publish "H1.event.0x0abc.0xdead_1.1000" "0xdead_1",
         Attempt.saveInteresting "0x0abc" 7,
         Attempt.saveInteresting "0x0abc" 7] ∧
      (Index sampleEnv sampleConfig ⟨"0xabc"⟩ sampleBlock (World.init [])).1.calls.map
          Call.attempt ≠
        (Index sampleEnv sampleConfig ⟨"0x0abc"⟩ sampleBlock (World.init [])).1.calls.map
          Call.attempt := by
  refine ⟨by decide, by decide, by decide, by decide⟩

/-! ## Failures -/

theorem indexTrace_attempt_congr {σ σ' : Type} (env : Collaborators σ)
    (env' : Collaborators σ') (h : env.EnsureStarkFelt = env'.EnsureStarkFelt) (cfg : Config)
    (address : String) (block : GetBlockResponse) :
    (indexTrace env cfg address block).map Call.attempt =
      (indexTrace env' cfg address block).map Call.attempt := by
  simp only [indexTrace, transactionTrace, eventTrace, List.map_append, List.map_flatMap, h]
  rfl

/-- C8: `Index` always returns `nil`, and whatever the encoders and the storage do
(any pattern of failing `Set` calls and failing serializations, any state), the
sequence of attempted `Set` keys, `Publish` topics and payloads and checkpoint
calls is the same as with any other encoders and storage, in particular ones that
never fail: a failure does not stop the processing of the remaining matches. -/
theorem Index_failures_not_fatal {σ σ' : Type} (env : Collaborators σ)
    (encodeTx' : Transaction → Bytes × Bool) (encodeEvent' : Event → Bytes × Bool)
    (storageSet' : σ' → Bytes → Bytes → σ' × Bool)
    (saveContractInterestingBlock' : σ' → String → Nat → σ')
    (cfg : Config) (contract : Contract) (block : GetBlockResponse) (s : σ) (s' : σ') :
    (Index env cfg contract block (World.init s)).2 = none ∧
      (Index env cfg contract block (World.init s)).1.calls.map Call.attempt =
        (Index ⟨env.EnsureStarkFelt, encodeTx', encodeEvent', storageSet',
          saveContractInterestingBlock'⟩ cfg contract block (World.init s')).1.calls.map
          Call.attempt := by
  refine ⟨rfl, ?_⟩
  rw [(Index_trace env cfg contract block (World.init s)).1,
    (Index_trace _ cfg contract block (World.init s')).1]
  simp only [World.init, List.nil_append]
  exact indexTrace_attempt_congr env
    ⟨env.EnsureStarkFelt, encodeTx', encodeEvent', storageSet', saveContractInterestingBlock'⟩
    rfl cfg contract.Address block

/-- On the sample block, with encoders and a `Set` that fail on every call, `Index`
attempts the same keys and topics as with the sample collaborators, logs each
failure and returns `nil`. -/
theorem Index_failing_sample :
    (Index failingEnv sampleConfig ⟨"0xabc"⟩ sampleBlock (World.init [])).1.calls.map
          Call.attempt =
        (Index sampleEnv sampleConfig ⟨"0xabc"⟩ sampleBlock (World.init [])).1.calls.map
          Call.attempt ∧
      (Index failingEnv sampleConfig ⟨"0xabc"⟩ sampleBlock (World.init [])).1.logs =
        [⟨Level.error, "failed to encode event"⟩, ⟨Level.error, "failed to store event"⟩,
         ⟨Level.info, "Indexing tx for address"⟩, ⟨Level.error, "failed to encode event"⟩,
         ⟨Level.error, "failed to store event"⟩, ⟨Level.error, "failed to store event"⟩,
         ⟨Level.info, "Indexing event for address"⟩] ∧
      (Index failingEnv sampleConfig ⟨"0xabc"⟩ sampleBlock (World.init [])).2 = none := by
  refine ⟨by decide, by decide, rfl⟩

/-! ## Indexing the same block twice -/

theorem get_applyCalls {σ : Type} (env : Collaborators σ) (get : σ → Bytes → Option Bytes)
    (isCheckpointKey : Bytes → Prop)
    (hset : ∀ s k v k', get (env.storageSet s k v).1 k' = if k' = k then some v else get s k')
    (hsave : ∀ s a n k', ¬ isCheckpointKey k' →
      get (env.saveContractInterestingBlock s a n) k' = get s k')
    (k : Bytes) (hk : ¬ isCheckpointKey k) :
    ∀ (calls : List Call) (s : σ), get (applyCalls env calls s) k =
      match lastSet k calls with
      | some v => some v
      | none => get s k := by
  intro calls
  induction calls with
  | nil => intro s; rfl
  | cons c rest ih =>
    intro s
    have h := ih (applyCall env s c)
    simp only [applyCalls, List.foldl_cons] at h ⊢
    rw [h]
    simp only [lastSet]
    cases hl : lastSet k rest with
    | some v => rfl
    | none =>
      cases c with
      | set k' v =>
        simp only [applyCall, hset]
        by_cases e : k = k' <;> simp [e]
      | publish t p => rfl
      | saveInteresting a n => simp only [applyCall, hsave _ _ _ _ hk]

/-- C6: take a store whose `Set` makes the key hold the value and leaves the other
keys alone, and a checkpoint update that touches checkpoint keys only. For every
initial store, contract address and block, every key other than a checkpoint key
holds after running `Index` twice on the same contract and block exactly what it
holds after running it once: the tx and event records are the same and no further
key appears. (The encoders are functions, hence deterministic.) -/
theorem Index_twice_store {σ : Type} (env : Collaborators σ)
    (get : σ → Bytes → Option Bytes) (isCheckpointKey : Bytes → Prop)
    (hset : ∀ s k v k', get (env.storageSet s k v).1 k' = if k' = k then some v else get s k')
    (hsave : ∀ s a n k', ¬ isCheckpointKey k' →
      get (env.saveContractInterestingBlock s a n) k' = get s k')
    (cfg : Config) (contract : Contract) (block : GetBlockResponse) (w : World σ)
    (k : Bytes) (hk : ¬ isCheckpointKey k) :
    get (Index env cfg contract block (Index env cfg contract block w).1).1.storage k =
      get (Index env cfg contract block w).1.storage k := by
  rw [(Index_trace env cfg contract block (Index env cfg contract block w).1).2,
    (Index_trace env cfg contract block w).2,
    get_applyCalls env get isCheckpointKey hset hsave k hk,
    get_applyCalls env get isCheckpointKey hset hsave k hk]
  cases lastSet k (indexTrace env cfg contract.Address block) <;> rfl

theorem sampleEnv_get_set (s : MemStore) (k v k' : Bytes) :
    memGet (sampleEnv.storageSet s k v).1 k' = if k' = k then some v else memGet s k' := rfl

theorem sampleEnv_get_save (s : MemStore) (a : String) (n : Nat) (k' : Bytes)
    (h : ¬ ∃ x : String, k' = "snapshot." ++ x) :
    memGet (sampleEnv.saveContractInterestingBlock s a n) k' = memGet s k' := by
  have hne : k' ≠ "snapshot." ++ a := fun e => h ⟨a, e⟩
  simp [sampleEnv, memGet, hne]

theorem txKey_not_snapshot : ¬ ∃ x : String, "0xabc.tx.0xaa" = "snapshot." ++ x := by
  rintro ⟨x, hx⟩
  have h := congrArg String.data hx
  simp only [String.data_append] at h
  exact absurd h (by simp)

/-- Witness for C6 on the in-memory store and the sample block: the record of the
transaction `0xaa` is the same after two runs as after one. -/
theorem Index_twice_store_witness :
    (∀ s k v k', memGet (sampleEnv.storageSet s k v).1 k' =
        if k' = k then some v else memGet s k') ∧
      (¬ ∃ x : String, "0xabc.tx.0xaa" = "snapshot." ++ x) ∧
      memGet (Index sampleEnv sampleConfig ⟨"0xabc"⟩ sampleBlock
          (Index sampleEnv sampleConfig ⟨"0xabc"⟩ sampleBlock (World.init [])).1).1.storage
          "0xabc.tx.0xaa" =
        memGet (Index sampleEnv sampleConfig ⟨"0xabc"⟩ sampleBlock (World.init [])).1.storage
          "0xabc.tx.0xaa" ∧
      memGet (Index sampleEnv sampleConfig ⟨"0xabc"⟩ sampleBlock (World.init [])).1.storage
          "0xabc.tx.0xaa" = some "0xaa|0xabc" :=
  ⟨sampleEnv_get_set, txKey_not_snapshot,
   Index_twice_store sampleEnv memGet (fun k => ∃ x : String, k = "snapshot." ++ x)
     sampleEnv_get_set sampleEnv_get_save sampleConfig ⟨"0xabc"⟩ sampleBlock (World.init [])
     "0xabc.tx.0xaa" txKey_not_snapshot,
   by decide⟩

/-! ## Pipeline start-up -/

/-- C7, as the code has it: for a configuration with one contract, `indexProcess`
starts the replay with exactly the blocks of the stored snapshot, in their stored
order, and starts the live iteration with the larger of `StartBlock` and the
snapshot's `LatestBlock`; with `StartBlock = 0` and the snapshot
`{Blocks: [5, 9], LatestBlock: 12}` the replay gets 5 and 9 and the live iteration
is started with block 12. -/
theorem indexProcess_single_contract (getContractSnapshot : String → Nat → ContractSnapshot)
    (appName hash : String) (startBlock : Nat) (c : Contract) :
    indexProcess getContractSnapshot ⟨appName, hash, startBlock, [c]⟩ =
        [Spawn.replayBlocks (getContractSnapshot c.Address startBlock).Blocks,
         Spawn.iterateBlocks
           (max startBlock (getContractSnapshot c.Address startBlock).LatestBlock)] ∧
      indexProcess (fun _ _ => ⟨[5, 9], 12⟩) ⟨"app", "H1", 0, [⟨"0xabc"⟩]⟩ =
        [Spawn.replayBlocks [5, 9], Spawn.iterateBlocks 12] := by
  refine ⟨?_, by decide⟩
  simp only [indexProcess, indexProcessBody, List.foldl_cons, List.foldl_nil, List.nil_append,
    gt_iff_lt]
  by_cases h : startBlock < (getContractSnapshot c.Address startBlock).LatestBlock
  · rw [if_pos h, Nat.max_eq_right (Nat.le_of_lt h)]
  · rw [if_neg h, Nat.max_eq_left (Nat.le_of_not_lt h)]

/-- C7 fails as stated: with `StartBlock = 0` and the snapshot
`{Blocks: [5, 9], LatestBlock: 12}`, `indexProcess` starts `iterateBlocks` with
block 12, not 13. -/
theorem indexProcess_counterexample :
    indexProcess (fun _ _ => ⟨[5, 9], 12⟩) sampleConfig =
        [Spawn.replayBlocks [5, 9], Spawn.iterateBlocks 12] ∧
      indexProcess (fun _ _ => ⟨[5, 9], 12⟩) sampleConfig ≠
        [Spawn.replayBlocks [5, 9], Spawn.iterateBlocks 13] := by
  refine ⟨by decide, by decide⟩

end Indexer
